import Mathlib

/-!
Verification of the analysis engine of the `skilledenough` repository
(`src/services/analyzer.ts`, class `SkillAnalyzer`).

The engine is shallowly embedded: timestamps are epoch milliseconds
modelled as `Int` (the JavaScript `Date.getTime` value), the current
wall-clock instant is an explicit `now : Int` parameter, JavaScript
number arithmetic on day counts is modelled exactly over `ℚ`/`Int`
(`Math.round(a / b)` for `b > 0` is `⌊(2a + b) / (2b)⌋`), and
JavaScript's stable `Array.prototype.sort` is modelled by stable
insertion sort (for a comparator that induces a total preorder the
stable sorted permutation is unique, so any stable sort is a faithful
model).  JavaScript `Set` objects are modelled as duplicate-free lists
in insertion order, plain objects used as string-keyed maps as
association lists in key-insertion order.
-/

namespace Skilled

/-- Milliseconds per day, the `dayMs` constant of the analyzer. -/
def dayMs : Int := 1000 * 60 * 60 * 24

/-- `Math.round (a / b)` for integers `a` and `b > 0`: the rational
`a / b + 1 / 2` floored, computed without leaving `Int`. -/
def jsRoundDiv (a b : Int) : Int := Int.fdiv (2 * a + b) (2 * b)

/-- `diffDays` of the analyzer: `Math.round((now - date) / dayMs)`. -/
def diffDays (now t : Int) : Int := jsRoundDiv (now - t) dayMs

/-- Membership-guarded push, the model of `Set.add` on a JavaScript
string set (insertion order preserved, duplicates dropped). -/
def insertSet (s : List String) (x : String) : List String :=
  if x ∈ s then s else s ++ [x]

/-- Substring test on character lists, prefix at each suffix. -/
def listPrefixOf : List Char → List Char → Bool
  | [], _ => true
  | _ :: _, [] => false
  | a :: as, b :: bs => a == b && listPrefixOf as bs

/-- Substring occurrence test on character lists. -/
def listInfixOf (needle : List Char) : List Char → Bool
  | [] => needle.isEmpty
  | c :: rest => listPrefixOf needle (c :: rest) || listInfixOf needle rest

/-- JavaScript `hay.includes(needle)`. -/
def includesStr (hay needle : String) : Bool := listInfixOf needle.toList hay.toList

/-- The `RepositoryWithLanguages` input record of the analyzer.
Timestamps are epoch milliseconds; `languageStats` is the optional
language-name → byte-count map in key-insertion order. -/
structure RepositoryWithLanguages where
  name : String
  description : Option String
  language : Option String
  stargazers_count : Nat
  forks_count : Nat
  updated_at : Int
  created_at : Int
  html_url : String
  topics : List String
  languageStats : Option (List (String × Nat))
deriving DecidableEq

/-- The `GitHubUser` record (`src/types/github.ts`). -/
structure GitHubUser where
  login : String
  name : String
  bio : String
  public_repos : Nat
  followers : Nat
  following : Nat
  created_at : Int
  avatar_url : String
  html_url : String
deriving DecidableEq

/-- `ActivityMetrics` (`src/types/github.ts`). -/
structure ActivityMetrics where
  recentPushes : Nat
  activeLast30Days : Nat
  activeLast90Days : Nat
  medianUpdateInterval : Int
  longestQuietStreak : Int
  velocityScore : Int
deriving DecidableEq

/-- Stable sort of the repositories by update timestamp, most recent
first — `[...repos].sort((a, b) => dateB - dateA)`. -/
def sortByUpdateDesc (repos : List RepositoryWithLanguages) : List RepositoryWithLanguages :=
  List.insertionSort (fun a b => b.updated_at ≤ a.updated_at) repos

/-- Consecutive-pair day gaps of a repository list:
`Math.round(Math.abs(cur - next) / dayMs)` for each adjacent pair. -/
def pairGaps : List RepositoryWithLanguages → List Int
  | a :: b :: rest => jsRoundDiv |a.updated_at - b.updated_at| dayMs :: pairGaps (b :: rest)
  | _ => []

/-- The analyzer's private `median`: sort ascending, take the middle
element for odd length, `Math.round` of the mean of the two middle
elements for even length, `0` for the empty list. -/
def median (values : List Int) : Int :=
  if values.length = 0 then 0
  else
    let sorted := List.insertionSort (fun a b : Int => a ≤ b) values
    let mid := values.length / 2
    if values.length % 2 ≠ 0 then sorted.getD mid 0
    else jsRoundDiv (sorted.getD (mid - 1) 0 + sorted.getD mid 0) 2

/-- `calculateActivityMetrics`: recency counts, gap statistics and the
clamped velocity score; an all-default record on empty input. -/
def calculateActivityMetrics (now : Int) (repos : List RepositoryWithLanguages) : ActivityMetrics :=
  match repos with
  | [] =>
    { recentPushes := 0, activeLast30Days := 0, activeLast90Days := 0
      medianUpdateInterval := 90, longestQuietStreak := 0, velocityScore := 0 }
  | r :: rs =>
    let sortedByUpdate := sortByUpdateDesc (r :: rs)
    let intervals := pairGaps sortedByUpdate
    let recentPushes := (sortedByUpdate.filter (fun rp => diffDays now rp.updated_at ≤ 14)).length
    let activeLast30Days := (sortedByUpdate.filter (fun rp => diffDays now rp.updated_at ≤ 30)).length
    let activeLast90Days := (sortedByUpdate.filter (fun rp => diffDays now rp.updated_at ≤ 90)).length
    let firstDays := diffDays now (sortedByUpdate.headD r).updated_at
    let medianUpdateInterval := if intervals.isEmpty then firstDays else median intervals
    let longestQuietStreak := if intervals.isEmpty then firstDays else intervals.foldl max firstDays
    let velocityBase : Int := (activeLast30Days : Int) * 12 + (activeLast90Days : Int) * 6 + (recentPushes : Int) * 16
    let velocityPenalty : Int := max 0 (min 30 (Int.fdiv longestQuietStreak 30 * 8))
    let velocityScore := max 5 (min 100 (velocityBase - velocityPenalty))
    { recentPushes, activeLast30Days, activeLast90Days, medianUpdateInterval, longestQuietStreak, velocityScore }

/-- The median as the specification words it: an even gap count yields
the average of the two middle values rounded to the nearest integer, an
odd count yields the middle value directly. -/
def medianSpec (gaps : List Int) : Int :=
  let s := List.insertionSort (fun a b : Int => a ≤ b) gaps
  if gaps.length % 2 = 1 then s.getD (gaps.length / 2) 0
  else jsRoundDiv (s.getD (gaps.length / 2 - 1) 0 + s.getD (gaps.length / 2) 0) 2

theorem median_eq_medianSpec (l : List Int) (h : l ≠ []) : median l = medianSpec l := by
  have hlen : l.length ≠ 0 := by simpa using h
  rcases Nat.mod_two_eq_zero_or_one l.length with h2 | h2 <;>
    simp [median, medianSpec, hlen, h2]

/-- Example repository updated 10 days before the reference instant 0. -/
def repoTenDays : RepositoryWithLanguages :=
  { name := "ten", description := none, language := none, stargazers_count := 0
    forks_count := 0, updated_at := -864000000, created_at := -864000000
    html_url := "", topics := [], languageStats := none }

/-- Example repository updated 100 days before the reference instant 0. -/
def repoHundredDays : RepositoryWithLanguages :=
  { name := "hundred", description := none, language := none, stargazers_count := 0
    forks_count := 0, updated_at := -8640000000, created_at := -8640000000
    html_url := "", topics := [], languageStats := none }

/-- C3: for every non-empty repository list the velocity score is
clamped into [5, 100]; the empty list yields exactly the default
metrics record (recentPushes 0, activeLast30Days 0, activeLast90Days 0,
medianUpdateInterval 90, longestQuietStreak 0, velocityScore 0) and
never fails. -/
theorem velocityScore_bounds_and_empty_default
    (now : Int) (r : RepositoryWithLanguages) (rs : List RepositoryWithLanguages) :
    (5 ≤ (calculateActivityMetrics now (r :: rs)).velocityScore ∧
      (calculateActivityMetrics now (r :: rs)).velocityScore ≤ 100) ∧
    calculateActivityMetrics now [] =
      { recentPushes := 0, activeLast30Days := 0, activeLast90Days := 0
        medianUpdateInterval := 90, longestQuietStreak := 0, velocityScore := 0 } := by
  refine ⟨⟨?_, ?_⟩, rfl⟩
  · simp [calculateActivityMetrics]
  · simp only [calculateActivityMetrics]
    exact max_le (by norm_num) (le_trans (min_le_left _ _) le_rfl)

/-- C4 counterexample: with repositories updated 10 and 100 days ago the
code returns a longest quiet streak of 90 (the single 90-day gap versus
the newest repository's 10 days), not the max of the gaps and the
oldest repository's 100 days-since-update that the claim describes. -/
theorem longestQuietStreak_not_oldest_based :
    (calculateActivityMetrics 0 [repoTenDays, repoHundredDays]).longestQuietStreak ≠
      (pairGaps (sortByUpdateDesc [repoTenDays, repoHundredDays])).foldl max
        (diffDays 0 ((sortByUpdateDesc [repoTenDays, repoHundredDays]).getLastD repoTenDays).updated_at) := by
  decide

/-- C4 amended: for every non-empty repository list the longest quiet
streak is the maximum of all consecutive-pair day gaps (over the
repositories sorted by update timestamp descending) and the most
recently updated repository's days-since-update; in particular a single
repository yields its own days-since-update. -/
theorem longestQuietStreak_eq_max_gaps_newest
    (now : Int) (r : RepositoryWithLanguages) (rs : List RepositoryWithLanguages) :
    (calculateActivityMetrics now (r :: rs)).longestQuietStreak =
      (pairGaps (sortByUpdateDesc (r :: rs))).foldl max
        (diffDays now ((sortByUpdateDesc (r :: rs)).headD r).updated_at) ∧
    ∀ r2 : RepositoryWithLanguages,
      (calculateActivityMetrics now [r2]).longestQuietStreak = diffDays now r2.updated_at := by
  constructor
  · by_cases hg : (pairGaps (sortByUpdateDesc (r :: rs))).isEmpty
    · have hnil : pairGaps (sortByUpdateDesc (r :: rs)) = [] := by
        simpa [List.isEmpty_iff] using hg
      simp [calculateActivityMetrics, hg, hnil]
    · simp [calculateActivityMetrics, hg]
  · intro r2
    simp [calculateActivityMetrics, sortByUpdateDesc, List.insertionSort, pairGaps]

/-- C5: for every non-empty repository list the median update interval
is the median (spec sense: even count averages the two middle values
and rounds, odd count takes the middle) of the consecutive-pair gaps of
the update timestamps sorted descending, falling back to the single
repository's days-since-update when there are no gaps; and the concrete
scenario of two repositories updated 10 and 100 days before now yields
medianUpdateInterval 90 and longestQuietStreak 90. -/
theorem medianUpdateInterval_spec
    (now : Int) (r : RepositoryWithLanguages) (rs : List RepositoryWithLanguages) :
    (calculateActivityMetrics now (r :: rs)).medianUpdateInterval =
      (if pairGaps (sortByUpdateDesc (r :: rs)) = []
        then diffDays now ((sortByUpdateDesc (r :: rs)).headD r).updated_at
        else medianSpec (pairGaps (sortByUpdateDesc (r :: rs)))) ∧
    (calculateActivityMetrics 0 [repoTenDays, repoHundredDays]).medianUpdateInterval = 90 ∧
    (calculateActivityMetrics 0 [repoTenDays, repoHundredDays]).longestQuietStreak = 90 := by
  refine ⟨?_, by decide, by decide⟩
  by_cases hg : pairGaps (sortByUpdateDesc (r :: rs)) = []
  · simp [calculateActivityMetrics, hg]
  · have hne : ¬(pairGaps (sortByUpdateDesc (r :: rs))).isEmpty := by
      simpa [List.isEmpty_iff] using hg
    simp [calculateActivityMetrics, hg, hne, median_eq_medianSpec _ hg]

/-- The `frameworkKeywords` lexicon: technology name → alias substrings. -/
def frameworkKeywords : List (String × List String) :=
  [("React", ["react", "reactjs"]),
   ("Next.js", ["next.js", "nextjs"]),
   ("Gatsby", ["gatsby"]),
   ("Angular", ["angular", "@angular"]),
   ("Vue", ["vue", "vuejs"]),
   ("Nuxt.js", ["nuxt"]),
   ("Vite", ["vite"]),
   ("Django", ["django"]),
   ("Flask", ["flask"]),
   ("FastAPI", ["fastapi"]),
   ("Express", ["express", "expressjs"]),
   ("NestJS", ["nestjs", "@nestjs"]),
   ("Spring", ["spring", "springboot", "spring-boot"]),
   ("Laravel", ["laravel"]),
   ("Rails", ["rails", "ruby-on-rails"]),
   ("ASP.NET", ["asp.net", "aspnet"]),
   ("Flutter", ["flutter"]),
   ("React Native", ["react-native"]),
   ("TensorFlow", ["tensorflow"]),
   ("PyTorch", ["pytorch"]),
   ("Kubernetes", ["kubernetes", "k8s"]),
   ("Docker", ["docker"]),
   ("AWS", ["aws", "amazon-web-services"]),
   ("Azure", ["azure"]),
   ("GCP", ["gcp", "google-cloud"]),
   ("MongoDB", ["mongodb", "mongo"]),
   ("PostgreSQL", ["postgresql", "postgres"]),
   ("MySQL", ["mysql"]),
   ("Redis", ["redis"]),
   ("Node", ["node.js", "nodejs"]),
   ("GraphQL", ["graphql"]),
   ("Tailwind", ["tailwind", "tailwindcss"]),
   ("Bootstrap", ["bootstrap"]),
   ("Material-UI", ["material-ui", "mui"])]

/-- The `stackPatterns` lexicon: archetype name → required components. -/
def stackPatterns : List (String × List String) :=
  [("MERN", ["MongoDB", "Express", "React", "Node"]),
   ("MEAN", ["MongoDB", "Express", "Angular", "Node"]),
   ("MEVN", ["MongoDB", "Express", "Vue", "Node"]),
   ("PERN", ["PostgreSQL", "Express", "React", "Node"]),
   ("LAMP", ["Linux", "Apache", "MySQL", "PHP"]),
   ("Django Stack", ["Django", "PostgreSQL", "Python"]),
   ("Rails Stack", ["Rails", "PostgreSQL", "Ruby"]),
   ("JAMstack", ["JavaScript", "API", "Markup"]),
   ("T3 Stack", ["TypeScript", "tRPC", "Tailwind", "Next.js"])]

/-- The `techStackMapping` lexicon: job role → required skills. -/
def techStackMapping : List (String × List String) :=
  [("Frontend Developer", ["JavaScript", "TypeScript", "HTML", "CSS", "React", "Vue", "Angular"]),
   ("Backend Developer", ["Python", "Java", "Go", "Node.js", "Ruby", "PHP", "C#"]),
   ("Full Stack Developer", ["JavaScript", "TypeScript", "Python", "React", "Node.js", "Express"]),
   ("Mobile Developer", ["Swift", "Kotlin", "Java", "Dart", "Flutter", "React Native"]),
   ("DevOps Engineer", ["Docker", "Kubernetes", "Python", "Go", "Shell", "Terraform"]),
   ("Data Scientist", ["Python", "R", "SQL", "TensorFlow", "PyTorch", "Jupyter"]),
   ("ML Engineer", ["Python", "TensorFlow", "PyTorch", "Scikit-learn", "Keras"]),
   ("Cloud Engineer", ["AWS", "Azure", "GCP", "Terraform", "Docker", "Kubernetes"]),
   ("Game Developer", ["C++", "C#", "Unity", "Unreal Engine", "Godot"]),
   ("Systems Programmer", ["C", "C++", "Rust", "Go", "Assembly"])]

/-- The case-folded haystack of a repository: topics, description and
name joined with spaces and lower-cased. -/
def searchTextOf (r : RepositoryWithLanguages) : String :=
  (String.intercalate " " (r.topics ++ [r.description.getD "", r.name])).toLower

/-- Whether any alias of a lexicon entry occurs in the haystack. -/
def matchesKeywords (st : String) (keywords : List String) : Bool :=
  keywords.any (fun k => includesStr st k)

/-- One step of language-byte aggregation:
`languageTotals[lang] = (languageTotals[lang] || 0) + bytes` on an
association list in key-insertion order. -/
def addLangBytes (m : List (String × Nat)) (kv : String × Nat) : List (String × Nat) :=
  if m.any (fun p => p.1 == kv.1) then
    m.map (fun p => if p.1 == kv.1 then (p.1, p.2 + kv.2) else p)
  else m ++ [kv]

/-- Summed per-language byte counts across all repositories. -/
def languageTotals (repos : List RepositoryWithLanguages) : List (String × Nat) :=
  repos.foldl (fun m r => (r.languageStats.getD []).foldl addLangBytes m) []

/-- Total byte count over all languages. -/
def totalBytes (repos : List RepositoryWithLanguages) : Nat :=
  ((languageTotals repos).map Prod.snd).sum

/-- Each language paired with `bytes / totalBytes * 100`. -/
def percentageList (repos : List RepositoryWithLanguages) : List (String × ℚ) :=
  (languageTotals repos).map (fun p => (p.1, ((p.2 : ℚ) / ((totalBytes repos : Nat) : ℚ)) * 100))

/-- `topLanguages`: percentages sorted descending (stable), top 10. -/
def topLanguagesOf (repos : List RepositoryWithLanguages) : List (String × ℚ) :=
  (List.insertionSort (fun a b : String × ℚ => b.2 ≤ a.2) (percentageList repos)).take 10

/-- Sum of the percentage components of a language list. -/
def percSum (l : List (String × ℚ)) : ℚ := (l.map Prod.snd).sum

theorem sum_map_div_mul (l : List (String × Nat)) (T : ℚ) :
    (l.map (fun p => ((p.2 : ℚ) / T) * 100)).sum =
      ((l.map (fun p => ((p.2 : Nat) : ℚ))).sum / T) * 100 := by
  induction l with
  | nil => simp
  | cons a l ih =>
    simp only [List.map_cons, List.sum_cons, ih]
    ring

/-- C1 (amended): whenever total bytes are positive and there are at
most 10 distinct languages, the percentages of the returned
`topLanguages` list sum to 100 within the ±0.01 tolerance (in this
exact-rational model of the arithmetic the sum is exactly 100, which
the proof establishes on the way); the empty repository list yields an
empty `topLanguages` list. -/
theorem topLanguages_sum_100 (repos : List RepositoryWithLanguages)
    (h10 : (languageTotals repos).length ≤ 10)
    (hpos : 0 < totalBytes repos) :
    |percSum (topLanguagesOf repos) - 100| ≤ 1 / 100 ∧
    topLanguagesOf ([] : List RepositoryWithLanguages) = [] := by
  refine ⟨?_, rfl⟩
  have hexact : percSum (topLanguagesOf repos) = 100 := ?_
  · rw [hexact]
    norm_num
  have hlenp : (percentageList repos).length = (languageTotals repos).length :=
    List.length_map _ _
  have hlen : (List.insertionSort (fun a b : String × ℚ => b.2 ≤ a.2)
      (percentageList repos)).length ≤ 10 := by
    rw [List.length_insertionSort, hlenp]; exact h10
  have htake : topLanguagesOf repos =
      List.insertionSort (fun a b : String × ℚ => b.2 ≤ a.2) (percentageList repos) := by
    unfold topLanguagesOf
    exact List.take_of_length_le hlen
  have hperm : (List.insertionSort (fun a b : String × ℚ => b.2 ≤ a.2)
      (percentageList repos)).Perm (percentageList repos) :=
    List.perm_insertionSort _ _
  have hsum : percSum (topLanguagesOf repos) = percSum (percentageList repos) := by
    rw [htake]
    exact List.Perm.sum_eq (hperm.map Prod.snd)
  rw [hsum]
  unfold percSum percentageList
  rw [List.map_map]
  have hsum2 : ((languageTotals repos).map
      (Prod.snd ∘ fun p : String × Nat => (p.1, ((p.2 : ℚ) / ((totalBytes repos : Nat) : ℚ)) * 100))).sum =
      (((languageTotals repos).map (fun p : String × Nat => ((p.2 : Nat) : ℚ))).sum /
        ((totalBytes repos : Nat) : ℚ)) * 100 := by
    rw [← sum_map_div_mul]
    rfl
  rw [hsum2]
  have hcast : ((languageTotals repos).map (fun p : String × Nat => ((p.2 : Nat) : ℚ))).sum =
      ((totalBytes repos : Nat) : ℚ) := by
    unfold totalBytes
    rw [Nat.cast_list_sum, List.map_map]
    rfl
  rw [hcast]
  have hne : ((totalBytes repos : Nat) : ℚ) ≠ 0 := by
    exact_mod_cast Nat.pos_iff_ne_zero.mp hpos
  rw [div_self hne]
  norm_num

/-- Example repository providing two languages totalling 4 bytes. -/
def repoTwoLangs : RepositoryWithLanguages :=
  { name := "two-langs", description := none, language := some "TypeScript"
    stargazers_count := 0, forks_count := 0, updated_at := 0, created_at := 0
    html_url := "", topics := [], languageStats := some [("TypeScript", 3), ("CSS", 1)] }

theorem topLanguages_sum_100_witness :
    |percSum (topLanguagesOf [repoTwoLangs]) - 100| ≤ 1 / 100 ∧
    topLanguagesOf ([] : List RepositoryWithLanguages) = [] :=
  topLanguages_sum_100 [repoTwoLangs] (by decide) (by decide)

/-- Example repository providing eleven distinct languages. -/
def repoElevenLangs : RepositoryWithLanguages :=
  { name := "eleven-langs", description := none, language := none
    stargazers_count := 0, forks_count := 0, updated_at := 0, created_at := 0
    html_url := "", topics := []
    languageStats := some [("L01", 11), ("L02", 10), ("L03", 9), ("L04", 8), ("L05", 7),
      ("L06", 6), ("L07", 5), ("L08", 4), ("L09", 3), ("L10", 2), ("L11", 1)] }

/-- C1 counterexample: a repository list with positive total bytes and
eleven languages whose top-10 percentages sum to 6500/66 ≈ 98.48,
outside the claimed ±0.01 tolerance around 100. -/
theorem topLanguages_sum_misses_100 :
    0 < totalBytes [repoElevenLangs] ∧
    ¬ |percSum (topLanguagesOf [repoElevenLangs]) - 100| ≤ 1 / 100 := by
  constructor
  · decide
  · have h : languageTotals [repoElevenLangs] =
        [("L01", 11), ("L02", 10), ("L03", 9), ("L04", 8), ("L05", 7),
         ("L06", 6), ("L07", 5), ("L08", 4), ("L09", 3), ("L10", 2), ("L11", 1)] := by
      decide
    have htot : totalBytes [repoElevenLangs] = 66 := by decide
    simp only [topLanguagesOf, percentageList, h, htot, percSum]
    norm_num [List.insertionSort, List.orderedInsert, List.take]
    rw [abs_of_pos (by norm_num : (0 : ℚ) < 50 / 33)]
    norm_num

/-- Frameworks ever matched by the Text Matcher across all repositories,
in first-detection order. -/
def frameworksOf (repos : List RepositoryWithLanguages) : List String :=
  repos.foldl (fun fs r => frameworkKeywords.foldl
    (fun a p => if matchesKeywords (searchTextOf r) p.2 then insertSet a p.1 else a) fs) []

/-- The `tools` set: fixed secondary keyword checks per repository. -/
def toolsOf (repos : List RepositoryWithLanguages) : List String :=
  repos.foldl (fun ts0 r =>
    let st := searchTextOf r
    let ts1 := if includesStr st "docker" then insertSet ts0 "Docker" else ts0
    let ts2 := if includesStr st "kubernetes" || includesStr st "k8s" then insertSet ts1 "Kubernetes" else ts1
    let ts3 := if includesStr st "git" then insertSet ts2 "Git" else ts2
    let ts4 := if includesStr st "ci/cd" || includesStr st "github-actions" then insertSet ts3 "CI/CD" else ts3
    let ts5 := if includesStr st "terraform" then insertSet ts4 "Terraform" else ts4
    if includesStr st "ansible" then insertSet ts5 "Ansible" else ts5) []

/-- Per-repository contribution to `detectedTech`: matched frameworks,
then Docker, Kubernetes and Terraform when their keywords match (the
Git, CI/CD and Ansible branches feed only `tools`). -/
def detectedRepoStep (acc : List String) (r : RepositoryWithLanguages) : List String :=
  let st := searchTextOf r
  let a1 := frameworkKeywords.foldl (fun a p => if matchesKeywords st p.2 then insertSet a p.1 else a) acc
  let a2 := if includesStr st "docker" then insertSet a1 "Docker" else a1
  let a3 := if includesStr st "kubernetes" || includesStr st "k8s" then insertSet a2 "Kubernetes" else a2
  if includesStr st "terraform" then insertSet a3 "Terraform" else a3

/-- The `detectedTech` set that feeds stack-archetype detection: the
repository loop contributions plus the top five languages. -/
def detectedTechOf (repos : List RepositoryWithLanguages) (topLangs : List (String × ℚ)) : List String :=
  (topLangs.take 5).foldl (fun a p => insertSet a p.1) (repos.foldl detectedRepoStep [])

/-- `detectFullStacks`: archetype pattern matching by symmetric
substring containment, then the hard-coded composite rules, capped at
four stacks. -/
def detectFullStacks (detectedTech : List String) : List String :=
  let techArray := detectedTech.map String.toLower
  let s0 := stackPatterns.foldl (fun acc p =>
    let matched := p.2.filter (fun comp => techArray.any (fun tech =>
      includesStr tech comp.toLower || includesStr comp.toLower tech))
    let thr := if 4 ≤ p.2.length then 3 else 2
    if thr ≤ matched.length then acc ++ [p.1] else acc) []
  let s1 := if "React" ∈ detectedTech then
      (if "Vite" ∈ detectedTech then s0 ++ ["React + Vite"]
       else if "Next.js" ∈ detectedTech then s0 ++ ["Next.js"] else s0)
    else s0
  let s2 := if "Vue" ∈ detectedTech ∧ "Vite" ∈ detectedTech then s1 ++ ["Vue + Vite"] else s1
  let s3 := if "Angular" ∈ detectedTech then s2 ++ ["Angular"] else s2
  let s4 := if "Node" ∈ detectedTech ∨ "Express" ∈ detectedTech then
      (if "TypeScript" ∈ detectedTech then s3 ++ ["Node.js + TypeScript"]
       else s3 ++ ["Node.js + Express"])
    else s3
  let s5 := if "Django" ∈ detectedTech then s4 ++ ["Django"] else s4
  let s6 := if "Spring" ∈ detectedTech then s5 ++ ["Spring Boot"] else s5
  let s7 := if ("React" ∈ detectedTech ∨ "Next.js" ∈ detectedTech) ∧
      ("Node" ∈ detectedTech ∨ "Express" ∈ detectedTech) ∧
      "MERN" ∉ s6 ∧ "PERN" ∉ s6 then
      (if "MongoDB" ∈ detectedTech then s6 ++ ["MERN Stack"]
       else if "PostgreSQL" ∈ detectedTech then s6 ++ ["PERN Stack"] else s6)
    else s6
  s7.take 4

/-- `TechStack` (`src/types/github.ts`). -/
structure TechStack where
  primary : List String
  secondary : List String
  frameworks : List String
  tools : List String
deriving DecidableEq

/-- `StackDepth` (`src/types/github.ts`). -/
structure StackDepth where
  core : List String
  supporting : List String
  emerging : List String
deriving DecidableEq

/-- Reference instant minus 12 months, the `recentCutoff` of
`deriveStackDepth`.  The source computes the same calendar date one
year earlier via `setMonth(getMonth() - 12)`; this model abstracts the
Gregorian-calendar step as a fixed 365-day span — every verified claim
is independent of the cutoff's exact value. -/
def recentCutoff (now : Int) : Int := now - 365 * dayMs

/-- Reference instant minus 6 months, the cutoff of
`isRecentlyActive` (same calendar abstraction as `recentCutoff`). -/
def sixMonthsAgo (now : Int) : Int := now - 183 * dayMs

/-- `isRecentlyActive`: updated strictly after six months ago. -/
def isRecentlyActive (now : Int) (updatedAt : Int) : Bool :=
  decide (sixMonthsAgo now < updatedAt)

/-- One `frameworkUsage` bump on an association list in key-insertion
order. -/
def bumpUsage (m : List (String × Nat)) (k : String) : List (String × Nat) :=
  if m.any (fun p => p.1 == k) then m.map (fun p => if p.1 == k then (p.1, p.2 + 1) else p)
  else m ++ [(k, 1)]

/-- Number of repositories matching each framework, in first-detection
order (the `frameworkUsage` map of `deriveStackDepth`). -/
def frameworkUsage (repos : List RepositoryWithLanguages) : List (String × Nat) :=
  repos.foldl (fun m r => frameworkKeywords.foldl
    (fun m2 p => if matchesKeywords (searchTextOf r) p.2 then bumpUsage m2 p.1 else m2) m) []

/-- Frameworks detected in a repository updated within the last
12 months (the `recentFrameworks` set of `deriveStackDepth`). -/
def recentFrameworks (now : Int) (repos : List RepositoryWithLanguages) : List String :=
  repos.foldl (fun s r => frameworkKeywords.foldl
    (fun s2 p => if matchesKeywords (searchTextOf r) p.2 ∧ recentCutoff now ≤ r.updated_at
      then insertSet s2 p.1 else s2) s) []

/-- The `core` set: up to the first four primary entries, plus every
framework used by at least two repositories. -/
def stackCore (techStack : TechStack) (repos : List RepositoryWithLanguages) : List String :=
  (frameworkUsage repos).foldl (fun c p => if 2 ≤ p.2 then insertSet c p.1 else c)
    ((techStack.primary.take 4).foldl insertSet [])

/-- The `supporting` set before the final core-exclusion filter:
frameworks used once, then secondary languages and tools not already in
core. -/
def stackSupportingRaw (techStack : TechStack) (repos : List RepositoryWithLanguages) : List String :=
  let core := stackCore techStack repos
  let s1 := (frameworkUsage repos).foldl (fun s p => if 2 ≤ p.2 then s else insertSet s p.1) []
  let s2 := techStack.secondary.foldl (fun s item => if item ∈ core then s else insertSet s item) s1
  techStack.tools.foldl (fun s tool => if tool ∈ core then s else insertSet s tool) s2

/-- The `emerging` set: recent frameworks and recently touched primary
languages absent from both core and the (pre-filter) supporting set. -/
def stackEmerging (now : Int) (techStack : TechStack) (repos : List RepositoryWithLanguages) : List String :=
  let core := stackCore techStack repos
  let supp := stackSupportingRaw techStack repos
  let e1 := (recentFrameworks now repos).foldl
    (fun e fw => if fw ∉ core ∧ fw ∉ supp then insertSet e fw else e) []
  repos.foldl (fun e r =>
    if recentCutoff now ≤ r.updated_at ∨ recentCutoff now ≤ r.created_at then
      match r.language with
      | none => e
      | some lang => if lang ∉ core ∧ lang ∉ supp then insertSet e lang else e
    else e) e1

/-- `deriveStackDepth`: the three-tier classification, with the final
supporting list filtered to exclude anything promoted to core. -/
def deriveStackDepth (now : Int) (techStack : TechStack) (repos : List RepositoryWithLanguages) : StackDepth :=
  { core := stackCore techStack repos
    supporting := (stackSupportingRaw techStack repos).filter
      (fun item => decide (item ∉ stackCore techStack repos))
    emerging := stackEmerging now techStack repos }

/-- The experience-level enumeration. -/
inductive ExperienceLevel
  | Beginner
  | Intermediate
  | Advanced
  | Expert
deriving DecidableEq

/-- `calculateAccountAge`: years since account creation (365-day
years), rounded to one decimal place. -/
def calculateAccountAge (now created : Int) : ℚ :=
  ((jsRoundDiv (10 * (now - created)) (1000 * 60 * 60 * 24 * 365) : Int) : ℚ) / 10

/-- `determineExperienceLevel`: banded additive score over account age,
project count, active-project count and mean stars. -/
def determineExperienceLevel (accountAge : ℚ) (totalProjects activeProjects : Nat)
    (avgStars : ℚ) : ExperienceLevel :=
  let score : Nat :=
    (if 7 ≤ accountAge then 4 else if 5 ≤ accountAge then 3
      else if 3 ≤ accountAge then 2 else if 1 ≤ accountAge then 1 else 0) +
    (if 100 ≤ totalProjects then 4 else if 50 ≤ totalProjects then 3
      else if 20 ≤ totalProjects then 2 else if 10 ≤ totalProjects then 1 else 0) +
    (if 20 ≤ activeProjects then 3 else if 10 ≤ activeProjects then 2
      else if 5 ≤ activeProjects then 1 else 0) +
    (if 100 ≤ avgStars then 4 else if 50 ≤ avgStars then 3
      else if 20 ≤ avgStars then 2 else if 5 ≤ avgStars then 1 else 0)
  if 12 ≤ score then .Expert else if 9 ≤ score then .Advanced
  else if 6 ≤ score then .Intermediate else .Beginner

/-- `SkillAnalysis` (`src/types/github.ts`). -/
structure SkillAnalysis where
  techStack : TechStack
  topLanguages : List (String × ℚ)
  experienceLevel : ExperienceLevel
  totalProjects : Nat
  activeProjects : Nat
  accountAge : ℚ
  stackDepth : StackDepth
deriving DecidableEq

/-- `analyzeSkills`: the Skill Aggregator. -/
def analyzeSkills (now : Int) (user : GitHubUser) (repos : List RepositoryWithLanguages) : SkillAnalysis :=
  let topLanguages := topLanguagesOf repos
  let detectedTech := detectedTechOf repos topLanguages
  let detectedStacks := detectFullStacks detectedTech
  let primary := (topLanguages.take 3).map Prod.fst
  let secondary := ((topLanguages.drop 3).take 3).map Prod.fst
  let techStack : TechStack :=
    { primary := if 0 < detectedStacks.length then detectedStacks else primary
      secondary := secondary
      frameworks := frameworksOf repos
      tools := toolsOf repos }
  let stackDepth := deriveStackDepth now techStack repos
  let accountAge := calculateAccountAge now user.created_at
  let totalProjects := repos.length
  let activeProjects := (repos.filter (fun r => isRecentlyActive now r.updated_at)).length
  let avgStars : ℚ := ((repos.map (fun r => ((r.stargazers_count : Nat) : ℚ))).sum) / ((repos.length : Nat) : ℚ)
  { techStack := techStack
    topLanguages := topLanguages
    experienceLevel := determineExperienceLevel accountAge totalProjects activeProjects avgStars
    totalProjects := totalProjects
    activeProjects := activeProjects
    accountAge := accountAge
    stackDepth := stackDepth }

theorem mem_insertSet {s : List String} {x y : String} :
    y ∈ insertSet s x ↔ y ∈ s ∨ y = x := by
  unfold insertSet
  by_cases h : x ∈ s
  · simp only [h, if_true]
    constructor
    · exact Or.inl
    · rintro (hy | rfl)
      · exact hy
      · exact h
  · simp [h]

theorem mem_ite_insertSet {acc : List String} {c : Prop} [Decidable c] {x y : String} :
    y ∈ (if c then insertSet acc x else acc) ↔ y ∈ acc ∨ (c ∧ y = x) := by
  by_cases h : c <;> simp [h, mem_insertSet]

theorem mem_foldl_char {β : Type} (f : List String → β → List String) (Q : β → String → Prop)
    (hchar : ∀ acc b y, y ∈ f acc b ↔ y ∈ acc ∨ Q b y) :
    ∀ (l : List β) (acc : List String) (y : String),
      y ∈ l.foldl f acc ↔ y ∈ acc ∨ ∃ b ∈ l, Q b y := by
  intro l
  induction l with
  | nil => simp
  | cons b l ih =>
    intro acc y
    rw [List.foldl_cons, ih, hchar]
    constructor
    · rintro ((h | h) | ⟨b', hb', h⟩)
      · exact Or.inl h
      · exact Or.inr ⟨b, List.mem_cons_self b l, h⟩
      · exact Or.inr ⟨b', List.mem_cons_of_mem b hb', h⟩
    · rintro (h | ⟨b', hb', h⟩)
      · exact Or.inl (Or.inl h)
      · rcases List.mem_cons.mp hb' with rfl | hb'
        · exact Or.inl (Or.inr h)
        · exact Or.inr ⟨b', hb', h⟩

theorem mem_frameworkFold (st : String) (acc : List String) (y : String) :
    y ∈ frameworkKeywords.foldl
      (fun a p => if matchesKeywords st p.2 then insertSet a p.1 else a) acc ↔
      y ∈ acc ∨ ∃ p ∈ frameworkKeywords, (matchesKeywords st p.2 = true ∧ y = p.1) :=
  mem_foldl_char _ (fun p y => matchesKeywords st p.2 = true ∧ y = p.1)
    (fun _ _ _ => mem_ite_insertSet) frameworkKeywords acc y

/-- What a single repository contributes to `detectedTech`. -/
def repoDetects (r : RepositoryWithLanguages) (y : String) : Prop :=
  (∃ p ∈ frameworkKeywords, (matchesKeywords (searchTextOf r) p.2 = true ∧ y = p.1)) ∨
  (includesStr (searchTextOf r) "docker" = true ∧ y = "Docker") ∨
  ((includesStr (searchTextOf r) "kubernetes" || includesStr (searchTextOf r) "k8s") = true ∧ y = "Kubernetes") ∨
  (includesStr (searchTextOf r) "terraform" = true ∧ y = "Terraform")

theorem mem_detectedRepoStep {acc : List String} {r : RepositoryWithLanguages} {y : String} :
    y ∈ detectedRepoStep acc r ↔ y ∈ acc ∨ repoDetects r y := by
  unfold detectedRepoStep repoDetects
  rw [mem_ite_insertSet, mem_ite_insertSet, mem_ite_insertSet, mem_frameworkFold]
  constructor
  · rintro ((((h | h) | h) | h) | h)
    · exact Or.inl h
    · exact Or.inr (Or.inl h)
    · exact Or.inr (Or.inr (Or.inl h))
    · exact Or.inr (Or.inr (Or.inr (Or.inl h)))
    · exact Or.inr (Or.inr (Or.inr (Or.inr h)))
  · rintro (h | (h | h | h | h))
    · exact Or.inl (Or.inl (Or.inl (Or.inl h)))
    · exact Or.inl (Or.inl (Or.inl (Or.inr h)))
    · exact Or.inl (Or.inl (Or.inr h))
    · exact Or.inl (Or.inr h)
    · exact Or.inr h

theorem mem_detectedTechOf {repos : List RepositoryWithLanguages}
    {topLangs : List (String × ℚ)} {y : String} :
    y ∈ detectedTechOf repos topLangs ↔
      (∃ r ∈ repos, repoDetects r y) ∨ y ∈ (topLangs.take 5).map Prod.fst := by
  unfold detectedTechOf
  rw [mem_foldl_char (fun a p => insertSet a p.1) (fun p y => y = p.1)
      (fun _ _ _ => mem_insertSet) (topLangs.take 5),
    mem_foldl_char detectedRepoStep repoDetects (fun _ _ _ => mem_detectedRepoStep) repos]
  simp only [List.mem_map, List.not_mem_nil, false_or]
  constructor
  · rintro (h | ⟨p, hp, rfl⟩)
    · exact Or.inl h
    · exact Or.inr ⟨p, hp, rfl⟩
  · rintro (h | ⟨p, hp, rfl⟩)
    · exact Or.inl h
    · exact Or.inr ⟨p, hp, rfl⟩

/-- C9: the detected-technology set that feeds stack-archetype
detection consists exactly of the frameworks whose lexicon aliases
matched some repository haystack, Docker / Kubernetes / Terraform when
their tool keywords matched (never the Git, CI/CD or Ansible branches),
and the top five languages by percentage; and `analyzeSkills` applies
`detectFullStacks` to exactly this set to obtain the primary stack. -/
theorem detectedTech_exactly (now : Int) (user : GitHubUser)
    (repos : List RepositoryWithLanguages) :
    (∀ y : String, y ∈ detectedTechOf repos (topLanguagesOf repos) ↔
      ((∃ p ∈ frameworkKeywords, (y = p.1 ∧
          ∃ r ∈ repos, matchesKeywords (searchTextOf r) p.2 = true)) ∨
        (y = "Docker" ∧ ∃ r ∈ repos, includesStr (searchTextOf r) "docker" = true) ∨
        (y = "Kubernetes" ∧ ∃ r ∈ repos,
          (includesStr (searchTextOf r) "kubernetes" || includesStr (searchTextOf r) "k8s") = true) ∨
        (y = "Terraform" ∧ ∃ r ∈ repos, includesStr (searchTextOf r) "terraform" = true) ∨
        y ∈ ((topLanguagesOf repos).take 5).map Prod.fst)) ∧
    (analyzeSkills now user repos).techStack.primary =
      (if 0 < (detectFullStacks (detectedTechOf repos (topLanguagesOf repos))).length
        then detectFullStacks (detectedTechOf repos (topLanguagesOf repos))
        else ((topLanguagesOf repos).take 3).map Prod.fst) := by
  refine ⟨?_, rfl⟩
  intro y
  rw [mem_detectedTechOf]
  constructor
  · rintro (⟨r, hr, hd⟩ | htop)
    · rcases hd with ⟨p, hp, hm, rfl⟩ | ⟨hm, rfl⟩ | ⟨hm, rfl⟩ | ⟨hm, rfl⟩
      · exact Or.inl ⟨p, hp, rfl, r, hr, hm⟩
      · exact Or.inr (Or.inl ⟨rfl, r, hr, hm⟩)
      · exact Or.inr (Or.inr (Or.inl ⟨rfl, r, hr, hm⟩))
      · exact Or.inr (Or.inr (Or.inr (Or.inl ⟨rfl, r, hr, hm⟩)))
    · exact Or.inr (Or.inr (Or.inr (Or.inr htop)))
  · rintro (⟨p, hp, rfl, r, hr, hm⟩ | ⟨rfl, r, hr, hm⟩ | ⟨rfl, r, hr, hm⟩ |
      ⟨rfl, r, hr, hm⟩ | htop)
    · exact Or.inl ⟨r, hr, Or.inl ⟨p, hp, hm, rfl⟩⟩
    · exact Or.inl ⟨r, hr, Or.inr (Or.inl ⟨hm, rfl⟩)⟩
    · exact Or.inl ⟨r, hr, Or.inr (Or.inr (Or.inl ⟨hm, rfl⟩))⟩
    · exact Or.inl ⟨r, hr, Or.inr (Or.inr (Or.inr ⟨hm, rfl⟩))⟩
    · exact Or.inr htop

theorem mem_emergingStep (c : Prop) [Decidable c] (core supp e : List String)
    (lo : Option String) (y : String) :
    y ∈ (if c then
        match lo with
        | none => e
        | some lang => if lang ∉ core ∧ lang ∉ supp then insertSet e lang else e
      else e) ↔
      y ∈ e ∨ (c ∧ ∃ lang, lo = some lang ∧ (lang ∉ core ∧ lang ∉ supp) ∧ y = lang) := by
  by_cases hc : c
  · cases lo with
    | none => simp [hc]
    | some lang =>
      rw [if_pos hc]
      rw [show (match some lang with
          | none => e
          | some lang => if lang ∉ core ∧ lang ∉ supp then insertSet e lang else e) =
          (if lang ∉ core ∧ lang ∉ supp then insertSet e lang else e) from rfl]
      rw [mem_ite_insertSet]
      constructor
      · rintro (h | ⟨hcc, rfl⟩)
        · exact Or.inl h
        · exact Or.inr ⟨hc, _, rfl, hcc, rfl⟩
      · rintro (h | ⟨_, lang', heq, hcc, rfl⟩)
        · exact Or.inl h
        · cases heq
          exact Or.inr ⟨hcc, rfl⟩
  · simp [hc]

theorem mem_stackEmerging {now : Int} {ts : TechStack}
    {repos : List RepositoryWithLanguages} {y : String}
    (h : y ∈ stackEmerging now ts repos) :
    y ∉ stackCore ts repos ∧ y ∉ stackSupportingRaw ts repos := by
  unfold stackEmerging at h
  rw [mem_foldl_char _
      (fun r y => (recentCutoff now ≤ r.updated_at ∨ recentCutoff now ≤ r.created_at) ∧
        ∃ lang, r.language = some lang ∧
          (lang ∉ stackCore ts repos ∧ lang ∉ stackSupportingRaw ts repos) ∧ y = lang)
      (fun e r y => mem_emergingStep
        (recentCutoff now ≤ r.updated_at ∨ recentCutoff now ≤ r.created_at)
        (stackCore ts repos) (stackSupportingRaw ts repos) e r.language y)
      repos] at h
  rcases h with h1 | ⟨r, hr, hcond, lang, heq, ⟨hnc, hns⟩, rfl⟩
  · rw [mem_foldl_char _
        (fun fw y => (fw ∉ stackCore ts repos ∧ fw ∉ stackSupportingRaw ts repos) ∧ y = fw)
        (fun _ _ _ => mem_ite_insertSet) (recentFrameworks now repos)] at h1
    rcases h1 with h0 | ⟨fw, hfw, ⟨hnc, hns⟩, rfl⟩
    · simp at h0
    · exact ⟨hnc, hns⟩
  · exact ⟨hnc, hns⟩

/-- C2: for every reference instant, account and repository list, the
`core`, `supporting` and `emerging` arrays of the returned stack depth
are pairwise disjoint as sets of technology names. -/
theorem stackDepth_pairwise_disjoint (now : Int) (user : GitHubUser)
    (repos : List RepositoryWithLanguages) :
    (analyzeSkills now user repos).stackDepth.core ∩
      (analyzeSkills now user repos).stackDepth.supporting = [] ∧
    (analyzeSkills now user repos).stackDepth.core ∩
      (analyzeSkills now user repos).stackDepth.emerging = [] ∧
    (analyzeSkills now user repos).stackDepth.supporting ∩
      (analyzeSkills now user repos).stackDepth.emerging = [] := by
  have hmain : ∀ (ts : TechStack),
      (deriveStackDepth now ts repos).core ∩ (deriveStackDepth now ts repos).supporting = [] ∧
      (deriveStackDepth now ts repos).core ∩ (deriveStackDepth now ts repos).emerging = [] ∧
      (deriveStackDepth now ts repos).supporting ∩ (deriveStackDepth now ts repos).emerging = [] := by
    intro ts
    unfold deriveStackDepth
    refine ⟨List.inter_eq_nil_iff_disjoint.mpr ?_,
      List.inter_eq_nil_iff_disjoint.mpr ?_,
      List.inter_eq_nil_iff_disjoint.mpr ?_⟩
    · intro y hy hy'
      have := (List.mem_filter.mp hy').2
      exact (of_decide_eq_true this) hy
    · intro y hy hy'
      exact (mem_stackEmerging hy').1 hy
    · intro y hy hy'
      have hyraw : y ∈ stackSupportingRaw ts repos := (List.mem_filter.mp hy).1
      exact (mem_stackEmerging hy').2 hyraw
  have h := hmain (analyzeSkills now user repos).techStack
  have hsd : (analyzeSkills now user repos).stackDepth =
      deriveStackDepth now (analyzeSkills now user repos).techStack repos := rfl
  rw [hsd]
  exact h

/-- Testing-maturity labels. -/
inductive TestingLevel
  | Strong
  | Moderate
  | Sparse
deriving DecidableEq

/-- Automation-maturity labels. -/
inductive AutomationLevel
  | Advanced
  | Basic
  | None
deriving DecidableEq

/-- Documentation-maturity labels. -/
inductive DocumentationLevel
  | Comprehensive
  | Moderate
  | Sparse
deriving DecidableEq

/-- Release-cadence labels (the source's `'Ad-hoc'` is `AdHoc`). -/
inductive ReleaseCadence
  | Weekly
  | Biweekly
  | Monthly
  | Quarterly
  | AdHoc
deriving DecidableEq

/-- `QualitySignals` (`src/types/github.ts`). -/
structure QualitySignals where
  testing : TestingLevel
  automation : AutomationLevel
  documentation : DocumentationLevel
  releaseCadence : ReleaseCadence
  notes : List String
deriving DecidableEq

/-- Testing keyword list of `evaluateQualitySignals`. -/
def testingKeywords : List String :=
  ["test", "spec", "jest", "pytest", "cypress", "vitest", "mocha", "unit"]

/-- Automation keyword list of `evaluateQualitySignals`. -/
def automationKeywords : List String :=
  ["github-actions", "workflow", "ci", "pipeline", "continuous", "deployment",
   "travis", "circleci", "azure-pipelines", "gitlab-ci"]

/-- Documentation keyword list of `evaluateQualitySignals`. -/
def documentationKeywords : List String :=
  ["docs", "documentation", "wiki", "guide", "handbook", "storybook", "readme"]

/-- `cadenceFromInterval`: release-cadence label from the median
update interval. -/
def cadenceFromInterval (interval : Int) : ReleaseCadence :=
  if interval ≤ 14 then .Weekly
  else if interval ≤ 30 then .Biweekly
  else if interval ≤ 60 then .Monthly
  else if interval ≤ 120 then .Quarterly
  else .AdHoc

/-- `evaluateQualitySignals`: keyword-hit ratios mapped to three-tier
labels, plus accumulated notes. -/
def evaluateQualitySignals (repos : List RepositoryWithLanguages)
    (activity : ActivityMetrics) : QualitySignals :=
  match repos with
  | [] =>
    { testing := .Sparse, automation := .None, documentation := .Sparse
      releaseCadence := .AdHoc
      notes := ["No public repositories available for analysis."] }
  | _ :: _ =>
    let total := repos.length
    let counts := repos.foldl (fun (c : Nat × Nat × Nat) r =>
      let text := searchTextOf r
      let t := if testingKeywords.any (fun k => includesStr text k) then c.1 + 1 else c.1
      let a := if automationKeywords.any (fun k => includesStr text k) then c.2.1 + 1 else c.2.1
      let d := if (match r.description with
          | some ds => decide (80 < ds.length)
          | none => false) || documentationKeywords.any (fun k => includesStr text k)
        then c.2.2 + 1 else c.2.2
      (t, a, d)) (0, 0, 0)
    let testingRatio : ℚ := ((counts.1 : Nat) : ℚ) / ((total : Nat) : ℚ)
    let automationRatio : ℚ := ((counts.2.1 : Nat) : ℚ) / ((total : Nat) : ℚ)
    let documentationRatio : ℚ := ((counts.2.2 : Nat) : ℚ) / ((total : Nat) : ℚ)
    let testing : TestingLevel :=
      if 35 / 100 ≤ testingRatio then .Strong
      else if 18 / 100 ≤ testingRatio then .Moderate else .Sparse
    let automation : AutomationLevel :=
      if 30 / 100 ≤ automationRatio then .Advanced
      else if 15 / 100 ≤ automationRatio then .Basic else .None
    let documentation : DocumentationLevel :=
      if 45 / 100 ≤ documentationRatio then .Comprehensive
      else if 20 / 100 ≤ documentationRatio then .Moderate else .Sparse
    let releaseCadence := cadenceFromInterval activity.medianUpdateInterval
    let notes0 : List String := []
    let notes1 := if testing = TestingLevel.Sparse then
      notes0 ++ ["Testing references are minimal across public repositories."] else notes0
    let notes2 := if automation = AutomationLevel.None then
      notes1 ++ ["No CI/CD or workflow keywords detected; consider adding automation."] else notes1
    let notes3 := if documentation = DocumentationLevel.Sparse then
      notes2 ++ ["Documentation signals are limited; enrich READMEs and guides."] else notes2
    let notes4 := if 5 ≤ activity.recentPushes then
      notes3 ++ ["Multiple repositories updated in the last two weeks."] else notes3
    let notes5 := if 70 ≤ activity.velocityScore then
      notes4 ++ ["Development cadence is consistently high."] else notes4
    { testing := testing, automation := automation, documentation := documentation
      releaseCadence := releaseCadence, notes := notes5 }

/-- `Opportunities` (`src/types/github.ts`). -/
structure Opportunities where
  jobRoles : List String
  industries : List String
  recommendations : List String
  nextActions : List String
deriving DecidableEq

/-- `Array.from(new Set(values))`: stable first-occurrence dedup. -/
def dedupe (values : List String) : List String := values.foldl insertSet []

/-- `identifyOpportunities`: the Opportunity Engine. -/
def identifyOpportunities (sa : SkillAnalysis) (q : QualitySignals)
    (a : ActivityMetrics) : Opportunities :=
  let primary := sa.techStack.primary
  let frameworks := sa.techStack.frameworks
  let tools := sa.techStack.tools
  let jobRoles := techStackMapping.foldl (fun jr p =>
    let matched := p.2.filter (fun skill =>
      primary.contains skill || frameworks.contains skill || tools.contains skill ||
      primary.any (fun pr => includesStr skill.toLower pr.toLower))
    if 2 ≤ matched.length then insertSet jr p.1 else jr) []
  let ind0 : List String := []
  let ind1 := if frameworks.any (fun f => (["React", "Angular", "Vue"] : List String).contains f)
    then insertSet (insertSet ind0 "Web Development") "SaaS" else ind0
  let ind2 := if frameworks.any (fun f => (["TensorFlow", "PyTorch"] : List String).contains f)
    then insertSet (insertSet ind1 "AI/ML") "Data Science" else ind1
  let ind3 := if tools.any (fun t => (["Docker", "Kubernetes", "AWS", "Azure", "GCP"] : List String).contains t)
    then insertSet (insertSet ind2 "Cloud Computing") "DevOps" else ind2
  let ind4 := if primary.any (fun p => (["Swift", "Kotlin", "Dart"] : List String).contains p)
    then insertSet ind3 "Mobile Apps" else ind3
  let ind5 := if frameworks.any (fun f => (["Django", "Flask", "Express", "Spring"] : List String).contains f)
    then insertSet (insertSet ind4 "Backend Services") "API Development" else ind4
  let base : List String × List String :=
    match sa.experienceLevel with
    | .Beginner =>
      (["Expand project variety to demonstrate breadth and foundational skills.",
        "Join collaborative open-source repositories to grow teamwork experience."],
       ["Ship a small production-ready project end-to-end this month."])
    | .Intermediate =>
      (["Deepen expertise in flagship stack components through advanced builds.",
        "Take on architectural responsibilities in collaborative projects."],
       ["Document design decisions and publish a technical case study."])
    | _ =>
      (["Share expertise via mentorship, talks, or open-source leadership.",
        "Lean into architecture and scaling concerns across flagship repos."],
       ["Formalize long-term roadmap for your most active repositories."])
  let acts2 := if sa.activeProjects < 3 then
    base.2 ++ ["Increase public project cadence to highlight ongoing maintenance."] else base.2
  let acts3 := if q.testing = TestingLevel.Sparse then
    acts2 ++ ["Introduce automated test coverage on highlighted repositories."] else acts2
  let acts4 := if q.automation = AutomationLevel.None then
    acts3 ++ ["Set up a CI/CD workflow (GitHub Actions, CircleCI, or similar)."] else acts3
  let acts5 := if q.documentation = DocumentationLevel.Sparse then
    acts4 ++ ["Upgrade README and docs with architecture notes and usage guides."] else acts4
  let acts6 := if a.velocityScore < 40 then
    acts5 ++ ["Plan bi-weekly release checkpoints to increase visible momentum."] else acts5
  { jobRoles := dedupe jobRoles, industries := dedupe ind5
    recommendations := dedupe base.1, nextActions := dedupe acts6 }

/-- Market-demand labels ('Very High' is `VeryHigh`). -/
inductive MarketDemand
  | Low
  | Medium
  | High
  | VeryHigh
deriving DecidableEq

/-- `FuturePrediction` (`src/types/github.ts`). -/
structure FuturePrediction where
  growthAreas : List String
  skillsToLearn : List String
  careerPath : List String
  marketDemand : MarketDemand
deriving DecidableEq

/-- Initial demand assignment of `predictFuture`: start Medium,
escalate on velocity or automation. -/
def demandStage1 (a : ActivityMetrics) (q : QualitySignals) : MarketDemand :=
  if 70 ≤ a.velocityScore ∨ q.automation = AutomationLevel.Advanced then .VeryHigh
  else if 50 ≤ a.velocityScore then .High else .Medium

/-- Python rule: raise to High, keep if already Very High. -/
def demandStage2 (primary : List String) (d : MarketDemand) : MarketDemand :=
  if "Python" ∈ primary then (if d = .VeryHigh then .VeryHigh else .High) else d

/-- Container-tooling rule: set Very High. -/
def demandStage3 (tools : List String) (d : MarketDemand) : MarketDemand :=
  if "Docker" ∈ tools ∨ "Kubernetes" ∈ tools then .VeryHigh else d

/-- Frontend-framework rule: raise to High unless already Very High. -/
def demandStage4 (frameworks : List String) (d : MarketDemand) : MarketDemand :=
  if frameworks.any (fun f => (["React", "Vue", "Angular"] : List String).contains f) then
    (if d ≠ .VeryHigh then .High else d)
  else d

/-- `predictFuture`: the Forecast Engine. -/
def predictFuture (sa : SkillAnalysis) (q : QualitySignals) (a : ActivityMetrics) : FuturePrediction :=
  let primary := sa.techStack.primary
  let frameworks := sa.techStack.frameworks
  let tools := sa.techStack.tools
  let d1 := demandStage1 a q
  let condJS := "JavaScript" ∈ primary ∨ "TypeScript" ∈ primary
  let ga1 := if condJS then ["Web3 and Blockchain Development", "Progressive Web Apps"] else []
  let sk1 := if condJS then ["WebAssembly", "GraphQL", "TypeScript (if not already)"] else []
  let condPy := "Python" ∈ primary
  let ga2 := if condPy then ga1 ++ ["AI and Machine Learning", "Data Engineering"] else ga1
  let sk2 := if condPy then sk1 ++ ["TensorFlow/PyTorch", "Apache Spark", "MLOps"] else sk1
  let d2 := demandStage2 primary d1
  let condCt := "Docker" ∈ tools ∨ "Kubernetes" ∈ tools
  let ga3 := if condCt then ga2 ++ ["Cloud Native Development", "Platform Engineering"] else ga2
  let sk3 := if condCt then sk2 ++ ["Service Mesh (Istio)", "GitOps (ArgoCD)", "eBPF"] else sk2
  let d3 := demandStage3 tools d2
  let condFe := frameworks.any (fun f => (["React", "Vue", "Angular"] : List String).contains f)
  let ga4 := if condFe then ga3 ++ ["Frontend Architecture"] else ga3
  let sk4 := if condFe then sk3 ++ ["Micro-frontends", "Server Components", "Edge Computing"] else sk3
  let d4 := demandStage4 frameworks d3
  let ga5 := if ga4.isEmpty then ["Cloud Computing", "DevOps", "Automation"] else ga4
  let careerPath : List String :=
    match sa.experienceLevel with
    | .Beginner =>
      ["Junior Developer (0-2 years)", "Mid-level Developer (2-4 years)",
       "Senior Developer (4-7 years)"]
    | .Intermediate =>
      ["Senior Developer (current)", "Tech Lead / Staff Engineer (2-3 years)",
       "Principal Engineer / Architect (5+ years)"]
    | _ =>
      ["Tech Lead / Staff Engineer (current)", "Principal Engineer (2-3 years)",
       "Distinguished Engineer / CTO (5+ years)"]
  let sk5 := if "System Design" ∉ sk4 then
    sk4 ++ ["System Design", "Cloud Architecture", "Security Best Practices"] else sk4
  { growthAreas := dedupe ga5, skillsToLearn := dedupe sk5
    careerPath := careerPath, marketDemand := d4 }

/-- Rank of a demand level in the Low < Medium < High < VeryHigh order. -/
def demandRank : MarketDemand → Nat
  | .Low => 0
  | .Medium => 1
  | .High => 2
  | .VeryHigh => 3

theorem demandStage1_rank (a : ActivityMetrics) (q : QualitySignals) :
    1 ≤ demandRank (demandStage1 a q) := by
  unfold demandStage1
  by_cases h1 : 70 ≤ a.velocityScore ∨ q.automation = AutomationLevel.Advanced
  · simp [h1, demandRank]
  · by_cases h2 : 50 ≤ a.velocityScore <;> simp [h1, h2, demandRank]

theorem demandStage2_mono (primary : List String) (d : MarketDemand) :
    demandRank d ≤ demandRank (demandStage2 primary d) := by
  unfold demandStage2
  by_cases hp : "Python" ∈ primary
  · cases d <;> simp [hp, demandRank]
  · simp [hp]

theorem demandStage3_mono (tools : List String) (d : MarketDemand) :
    demandRank d ≤ demandRank (demandStage3 tools d) := by
  unfold demandStage3
  by_cases hp : "Docker" ∈ tools ∨ "Kubernetes" ∈ tools
  · cases d <;> simp [hp, demandRank]
  · simp [hp]

theorem demandStage4_mono (frameworks : List String) (d : MarketDemand) :
    demandRank d ≤ demandRank (demandStage4 frameworks d) := by
  unfold demandStage4
  split
  · cases d <;> simp [demandRank]
  · exact le_rfl

theorem demandStage2_veryHigh (primary : List String) :
    demandStage2 primary .VeryHigh = .VeryHigh := by
  unfold demandStage2
  by_cases hp : "Python" ∈ primary <;> simp [hp]

theorem demandStage3_veryHigh (tools : List String) :
    demandStage3 tools .VeryHigh = .VeryHigh := by
  unfold demandStage3
  by_cases hp : "Docker" ∈ tools ∨ "Kubernetes" ∈ tools <;> simp [hp]

theorem demandStage4_veryHigh (frameworks : List String) :
    demandStage4 frameworks .VeryHigh = .VeryHigh := by
  unfold demandStage4
  by_cases hp : frameworks.any (fun f => (["React", "Vue", "Angular"] : List String).contains f) <;>
    simp [hp]

/-- C7: velocity ≥ 70 or Advanced automation forces Very High market
demand; velocity ≥ 50 forces at least High; every later trigger rule is
monotone (never lowers an already-reached level); and the returned
demand is exactly the four escalation stages composed in source order. -/
theorem marketDemand_escalation (sa : SkillAnalysis) (q : QualitySignals) (a : ActivityMetrics) :
    ((70 ≤ a.velocityScore ∨ q.automation = AutomationLevel.Advanced) →
      (predictFuture sa q a).marketDemand = MarketDemand.VeryHigh) ∧
    (50 ≤ a.velocityScore → 2 ≤ demandRank (predictFuture sa q a).marketDemand) ∧
    (∀ d : MarketDemand, demandRank d ≤ demandRank (demandStage2 sa.techStack.primary d)) ∧
    (∀ d : MarketDemand, demandRank d ≤ demandRank (demandStage3 sa.techStack.tools d)) ∧
    (∀ d : MarketDemand, demandRank d ≤ demandRank (demandStage4 sa.techStack.frameworks d)) ∧
    (predictFuture sa q a).marketDemand =
      demandStage4 sa.techStack.frameworks (demandStage3 sa.techStack.tools
        (demandStage2 sa.techStack.primary (demandStage1 a q))) := by
  have hcomp : (predictFuture sa q a).marketDemand =
      demandStage4 sa.techStack.frameworks (demandStage3 sa.techStack.tools
        (demandStage2 sa.techStack.primary (demandStage1 a q))) := rfl
  refine ⟨?_, ?_, demandStage2_mono _, demandStage3_mono _, demandStage4_mono _, hcomp⟩
  · intro h
    have h1 : demandStage1 a q = .VeryHigh := by
      unfold demandStage1
      simp [h]
    rw [hcomp, h1, demandStage2_veryHigh, demandStage3_veryHigh, demandStage4_veryHigh]
  · intro h
    have h1 : 2 ≤ demandRank (demandStage1 a q) := by
      unfold demandStage1
      by_cases h0 : 70 ≤ a.velocityScore ∨ q.automation = AutomationLevel.Advanced
      · simp [h0, demandRank]
      · simp [h0, h, demandRank]
    rw [hcomp]
    exact le_trans (le_trans (le_trans h1 (demandStage2_mono _ _)) (demandStage3_mono _ _))
      (demandStage4_mono _ _)

/-- Activity record with velocity exactly 70. -/
def exActivity : ActivityMetrics :=
  { recentPushes := 3, activeLast30Days := 3, activeLast90Days := 3
    medianUpdateInterval := 10, longestQuietStreak := 10, velocityScore := 70 }

/-- Quality record with Advanced automation. -/
def exQuality : QualitySignals :=
  { testing := .Moderate, automation := .Advanced, documentation := .Moderate
    releaseCadence := .Weekly, notes := [] }

/-- Skill record with an empty tech stack. -/
def exSkill : SkillAnalysis :=
  { techStack := { primary := [], secondary := [], frameworks := [], tools := [] }
    topLanguages := [], experienceLevel := .Beginner, totalProjects := 0
    activeProjects := 0, accountAge := 0
    stackDepth := { core := [], supporting := [], emerging := [] } }

theorem marketDemand_escalation_witness :
    (70 ≤ exActivity.velocityScore ∨ exQuality.automation = AutomationLevel.Advanced) ∧
    (predictFuture exSkill exQuality exActivity).marketDemand = MarketDemand.VeryHigh ∧
    50 ≤ exActivity.velocityScore ∧
    2 ≤ demandRank (predictFuture exSkill exQuality exActivity).marketDemand :=
  ⟨Or.inl (by decide),
   (marketDemand_escalation exSkill exQuality exActivity).1 (Or.inl (by decide)),
   by decide,
   (marketDemand_escalation exSkill exQuality exActivity).2.1 (by decide)⟩

/-- C10: the Forecast Engine never returns marketDemand = Low — the
value starts at Medium and every escalation stage only raises it, so
Low is unreachable at the public interface. -/
theorem marketDemand_never_low (sa : SkillAnalysis) (q : QualitySignals) (a : ActivityMetrics) :
    (predictFuture sa q a).marketDemand ≠ MarketDemand.Low := by
  have hcomp : (predictFuture sa q a).marketDemand =
      demandStage4 sa.techStack.frameworks (demandStage3 sa.techStack.tools
        (demandStage2 sa.techStack.primary (demandStage1 a q))) := rfl
  intro hlow
  have hrank : 1 ≤ demandRank (predictFuture sa q a).marketDemand := by
    rw [hcomp]
    exact le_trans (le_trans (le_trans (demandStage1_rank a q) (demandStage2_mono _ _))
      (demandStage3_mono _ _)) (demandStage4_mono _ _)
  rw [hlow] at hrank
  simp [demandRank] at hrank

/-- `RepositoryHighlight` (`src/types/github.ts`). -/
structure RepositoryHighlight where
  name : String
  description : Option String
  stars : Nat
  forks : Nat
  primaryLanguage : Option String
  lastUpdated : Int
  createdAt : Int
  topics : List String
  url : String
  reason : String
deriving DecidableEq

/-- The highlight record pushed for a repository. -/
def mkHighlight (r : RepositoryWithLanguages) (reason : String) : RepositoryHighlight :=
  { name := r.name, description := r.description, stars := r.stargazers_count
    forks := r.forks_count, primaryLanguage := r.language, lastUpdated := r.updated_at
    createdAt := r.created_at, topics := r.topics, url := r.html_url, reason := reason }

/-- The `addHighlight` closure: state is (highlights, seen names);
no-op on a missing repository or an already-seen name. -/
def addHighlight (st : List RepositoryHighlight × List String)
    (maybeRepo : Option RepositoryWithLanguages) (reason : String) :
    List RepositoryHighlight × List String :=
  match maybeRepo with
  | none => st
  | some r =>
    if r.name ∈ st.2 then st
    else (st.1 ++ [mkHighlight r reason], st.2 ++ [r.name])

/-- The trailing while loop: fill with "Popular" picks in star order
while fewer than `target` highlights and candidates remain. -/
def fillPopular (target : Nat) :
    List RepositoryWithLanguages → List RepositoryHighlight × List String →
    List RepositoryHighlight × List String
  | [], st => st
  | r :: rest, st =>
    if st.1.length < target then fillPopular target rest (addHighlight st (some r) "Popular")
    else st

/-- Stable sort by star count descending. -/
def sortByStarsDesc (repos : List RepositoryWithLanguages) : List RepositoryWithLanguages :=
  List.insertionSort (fun a b => b.stargazers_count ≤ a.stargazers_count) repos

/-- `extractRepositoryHighlights`: the Highlight Selector. -/
def extractRepositoryHighlights (repos : List RepositoryWithLanguages)
    (priorityLanguages : List String) : List RepositoryHighlight :=
  match repos with
  | [] => []
  | _ :: _ =>
    let byStars := sortByStarsDesc repos
    let byRecency := sortByUpdateDesc repos
    let st1 := addHighlight ([], []) byStars.head? "Top starred"
    let recentStandout := (byRecency.find? (fun r => 5 ≤ r.stargazers_count)).orElse
      (fun _ => byRecency.head?)
    let st2 := addHighlight st1 recentStandout "Recent"
    let stackAligned := byStars.find? (fun r => priorityLanguages.any (fun language =>
      ((r.language.getD "").toLower == language.toLower) ||
      (r.languageStats.getD []).any (fun p => p.1.toLower == language.toLower)))
    let st3 := addHighlight st2 stackAligned "Core stack"
    (fillPopular (min 3 repos.length) byStars st3).1

/-- Selector-state invariant: seen names mirror the highlight list,
are duplicate-free, and all come from the repository list. -/
def HInv (repos : List RepositoryWithLanguages)
    (st : List RepositoryHighlight × List String) : Prop :=
  st.1.map RepositoryHighlight.name = st.2 ∧ st.2.Nodup ∧
    ∀ n ∈ st.2, n ∈ repos.map RepositoryWithLanguages.name

theorem addHighlight_inv {repos : List RepositoryWithLanguages}
    {st : List RepositoryHighlight × List String}
    {maybeRepo : Option RepositoryWithLanguages} {reason : String}
    (hinv : HInv repos st)
    (hr : ∀ r, maybeRepo = some r → r ∈ repos) :
    HInv repos (addHighlight st maybeRepo reason) := by
  cases maybeRepo with
  | none => exact hinv
  | some r =>
    by_cases hn : r.name ∈ st.2
    · simpa [addHighlight, hn] using hinv
    · obtain ⟨h1, h2, h3⟩ := hinv
      have hrm : r ∈ repos := hr r rfl
      refine ⟨?_, ?_, ?_⟩
      · simp [addHighlight, hn, h1, mkHighlight]
      · simp only [addHighlight, hn, if_neg, if_false]
        rw [List.nodup_append]
        exact ⟨h2, List.nodup_singleton _, by
          intro x hx hx'
          rw [List.mem_singleton] at hx'
          subst hx'
          exact hn hx⟩
      · intro n hn'
        simp only [addHighlight, hn, if_false, List.mem_append, List.mem_singleton] at hn'
        rcases hn' with hn' | rfl
        · exact h3 n hn'
        · exact List.mem_map_of_mem RepositoryWithLanguages.name hrm

theorem addHighlight_length (st : List RepositoryHighlight × List String)
    (maybeRepo : Option RepositoryWithLanguages) (reason : String) :
    (addHighlight st maybeRepo reason).1.length ≤ st.1.length + 1 := by
  cases maybeRepo with
  | none => exact Nat.le_succ _
  | some r =>
    by_cases hn : r.name ∈ st.2 <;> simp [addHighlight, hn]

theorem fillPopular_length (target : Nat) (l : List RepositoryWithLanguages)
    (st : List RepositoryHighlight × List String) (h : st.1.length ≤ target) :
    (fillPopular target l st).1.length ≤ target := by
  induction l generalizing st with
  | nil => exact h
  | cons r rest ih =>
    unfold fillPopular
    by_cases hlt : st.1.length < target
    · rw [if_pos hlt]
      exact ih _ (le_trans (addHighlight_length st (some r) "Popular") (Nat.succ_le_of_lt hlt))
    · rw [if_neg hlt]
      exact h

theorem fillPopular_inv {repos : List RepositoryWithLanguages} (target : Nat) :
    ∀ (l : List RepositoryWithLanguages) (st : List RepositoryHighlight × List String),
      (∀ r ∈ l, r ∈ repos) → HInv repos st → HInv repos (fillPopular target l st) := by
  intro l
  induction l with
  | nil =>
    intro st _ hinv
    exact hinv
  | cons r rest ih =>
    intro st hl hinv
    unfold fillPopular
    by_cases hlt : st.1.length < target
    · rw [if_pos hlt]
      refine ih _ (fun r' hr' => hl r' (List.mem_cons_of_mem r hr'))
        (addHighlight_inv hinv ?_)
      intro r0 h0
      cases h0
      exact hl r (List.mem_cons_self r rest)
    · rw [if_neg hlt]
      exact hinv

theorem head?_mem {α : Type} {l : List α} {a : α} (h : l.head? = some a) : a ∈ l := by
  cases l with
  | nil => cases h
  | cons x t =>
    simp only [List.head?_cons, Option.some.injEq] at h
    subst h
    exact List.mem_cons_self x t

theorem nodup_sub_length {l l' : List String} (hn : l.Nodup)
    (hs : ∀ x ∈ l, x ∈ l') : l.length ≤ l'.length := by
  have h1 : l.toFinset.card = l.length := List.toFinset_card_of_nodup hn
  have h2 : l.toFinset ⊆ l'.toFinset := by
    intro x hx
    rw [List.mem_toFinset] at hx ⊢
    exact hs x hx
  calc l.length = l.toFinset.card := h1.symm
    _ ≤ l'.toFinset.card := Finset.card_le_card h2
    _ ≤ l'.length := List.toFinset_card_le l'

theorem hinv_length_le {repos : List RepositoryWithLanguages}
    {st : List RepositoryHighlight × List String} (hinv : HInv repos st) :
    st.1.length ≤ repos.length := by
  obtain ⟨h1, h2, h3⟩ := hinv
  have hlen : st.1.length = st.2.length := by
    rw [← h1, List.length_map]
  rw [hlen]
  have := nodup_sub_length h2 h3
  simpa using this

/-- C8: the highlight list never contains two entries with the same
repository name, its length is at most min(3, repository count), and
the empty repository list yields an empty highlight list. -/
theorem highlights_nodup_and_bounded (repos : List RepositoryWithLanguages)
    (priorityLanguages : List String) :
    ((extractRepositoryHighlights repos priorityLanguages).map RepositoryHighlight.name).Nodup ∧
    (extractRepositoryHighlights repos priorityLanguages).length ≤ min 3 repos.length ∧
    extractRepositoryHighlights ([] : List RepositoryWithLanguages) priorityLanguages = [] := by
  refine ?_
  cases repos with
  | nil => exact ⟨List.nodup_nil, by simp [extractRepositoryHighlights], rfl⟩
  | cons r0 rs =>
    set repos := r0 :: rs with hrepos
    have hperm : (sortByStarsDesc repos).Perm repos := List.perm_insertionSort _ _
    have hpermU : (sortByUpdateDesc repos).Perm repos := List.perm_insertionSort _ _
    have hinv0 : HInv repos ([], []) := ⟨rfl, List.nodup_nil, by intro n hn; cases hn⟩
    have hinv1 : HInv repos (addHighlight ([], []) (sortByStarsDesc repos).head? "Top starred") :=
      addHighlight_inv hinv0 (fun r h => hperm.mem_iff.mp (head?_mem h))
    have hinv2 : HInv repos (addHighlight
        (addHighlight ([], []) (sortByStarsDesc repos).head? "Top starred")
        (((sortByUpdateDesc repos).find? (fun r => 5 ≤ r.stargazers_count)).orElse
          (fun _ => (sortByUpdateDesc repos).head?)) "Recent") := by
      refine addHighlight_inv hinv1 ?_
      intro r h
      rcases hfind : (sortByUpdateDesc repos).find? (fun r => 5 ≤ r.stargazers_count) with _ | r'
      · have hred : ((sortByUpdateDesc repos).find? (fun r => 5 ≤ r.stargazers_count)).orElse
            (fun _ => (sortByUpdateDesc repos).head?) = (sortByUpdateDesc repos).head? := by
          rw [hfind]
          rfl
        rw [hred] at h
        exact hpermU.mem_iff.mp (head?_mem h)
      · have hred : ((sortByUpdateDesc repos).find? (fun r => 5 ≤ r.stargazers_count)).orElse
            (fun _ => (sortByUpdateDesc repos).head?) = some r' := by
          rw [hfind]
          rfl
        rw [hred] at h
        injection h with h2
        subst h2
        exact hpermU.mem_iff.mp (List.mem_of_find?_eq_some hfind)
    have hinv3 : HInv repos (addHighlight (addHighlight
        (addHighlight ([], []) (sortByStarsDesc repos).head? "Top starred")
        (((sortByUpdateDesc repos).find? (fun r => 5 ≤ r.stargazers_count)).orElse
          (fun _ => (sortByUpdateDesc repos).head?)) "Recent")
        ((sortByStarsDesc repos).find? (fun r => priorityLanguages.any (fun language =>
          ((r.language.getD "").toLower == language.toLower) ||
          (r.languageStats.getD []).any (fun p => p.1.toLower == language.toLower)))) "Core stack") := by
      refine addHighlight_inv hinv2 ?_
      intro r h
      exact hperm.mem_iff.mp (List.mem_of_find?_eq_some h)
    have hlen3 : (addHighlight (addHighlight
        (addHighlight ([], []) (sortByStarsDesc repos).head? "Top starred")
        (((sortByUpdateDesc repos).find? (fun r => 5 ≤ r.stargazers_count)).orElse
          (fun _ => (sortByUpdateDesc repos).head?)) "Recent")
        ((sortByStarsDesc repos).find? (fun r => priorityLanguages.any (fun language =>
          ((r.language.getD "").toLower == language.toLower) ||
          (r.languageStats.getD []).any (fun p => p.1.toLower == language.toLower)))) "Core stack").1.length ≤ 3 := by
      refine le_trans (addHighlight_length _ _ _) ?_
      have h2 := addHighlight_length (addHighlight ([], []) (sortByStarsDesc repos).head? "Top starred")
        (((sortByUpdateDesc repos).find? (fun r => 5 ≤ r.stargazers_count)).orElse
          (fun _ => (sortByUpdateDesc repos).head?)) "Recent"
      have h1 := addHighlight_length ([], []) (sortByStarsDesc repos).head? "Top starred"
      have h0 : (([] : List RepositoryHighlight), ([] : List String)).1.length = 0 := rfl
      omega
    have hfin : HInv repos (fillPopular (min 3 repos.length) (sortByStarsDesc repos)
        (addHighlight (addHighlight
          (addHighlight ([], []) (sortByStarsDesc repos).head? "Top starred")
          (((sortByUpdateDesc repos).find? (fun r => 5 ≤ r.stargazers_count)).orElse
            (fun _ => (sortByUpdateDesc repos).head?)) "Recent")
          ((sortByStarsDesc repos).find? (fun r => priorityLanguages.any (fun language =>
            ((r.language.getD "").toLower == language.toLower) ||
            (r.languageStats.getD []).any (fun p => p.1.toLower == language.toLower)))) "Core stack")) :=
      fillPopular_inv _ _ _ (fun r hr => hperm.mem_iff.mp hr) hinv3
    have hres : extractRepositoryHighlights repos priorityLanguages =
        (fillPopular (min 3 repos.length) (sortByStarsDesc repos)
          (addHighlight (addHighlight
            (addHighlight ([], []) (sortByStarsDesc repos).head? "Top starred")
            (((sortByUpdateDesc repos).find? (fun r => 5 ≤ r.stargazers_count)).orElse
              (fun _ => (sortByUpdateDesc repos).head?)) "Recent")
            ((sortByStarsDesc repos).find? (fun r => priorityLanguages.any (fun language =>
              ((r.language.getD "").toLower == language.toLower) ||
              (r.languageStats.getD []).any (fun p => p.1.toLower == language.toLower)))) "Core stack")).1 := rfl
    refine ⟨?_, ?_, rfl⟩
    · rw [hres]
      obtain ⟨h1, h2, _⟩ := hfin
      rw [h1]
      exact h2
    · rw [hres]
      refine fillPopular_length _ _ _ ?_
      exact le_min (hlen3) (hinv_length_le hinv3)

/-- `TimelineEvent` (`src/types/github.ts`). -/
structure TimelineEvent where
  year : Int
  title : String
  description : String
deriving DecidableEq

/-- Gregorian year (UTC) of an epoch-millisecond timestamp, the model
of `new Date(t).getFullYear()` via the standard civil-from-days
computation.  (The source reads the local timezone for this; the
engine's determinism and the verified claims are unaffected by the
timezone offset.) -/
def yearOf (t : Int) : Int :=
  let z := Int.fdiv t dayMs + 719468
  let era := Int.fdiv z 146097
  let doe := z - era * 146097
  let yoe := Int.fdiv (doe - Int.fdiv doe 1460 + Int.fdiv doe 36524 - Int.fdiv doe 146096) 365
  let y := yoe + era * 400
  let doy := doe - (365 * yoe + Int.fdiv yoe 4 - Int.fdiv yoe 100)
  let mp := Int.fdiv (5 * doy + 2) 153
  let m := if mp < 10 then mp + 3 else mp - 9
  if m ≤ 2 then y + 1 else y

/-- `timeSince`: humanized relative-age string. -/
def timeSince (now t : Int) : String :=
  let diffDaysV := jsRoundDiv (now - t) dayMs
  if diffDaysV ≤ 1 then "1 day"
  else if diffDaysV < 7 then toString diffDaysV ++ " days"
  else
    let diffWeeks := jsRoundDiv diffDaysV 7
    if diffWeeks < 5 then toString diffWeeks ++ " wks"
    else
      let diffMonths := jsRoundDiv diffDaysV 30
      if diffMonths < 12 then toString diffMonths ++ " mo"
      else
        let diffYears := jsRoundDiv diffDaysV 365
        toString diffYears ++ " yr" ++ (if 1 < diffYears then "s" else "")

/-- `buildTimeline`: milestone events sorted by year and deduplicated
by the (year, title) pair (the source keys on the reconstructed string
`year-title`, which coincides with the pair for these events). -/
def buildTimeline (now : Int) (user : GitHubUser) (repos : List RepositoryWithLanguages)
    (skillAnalysis : SkillAnalysis) : List TimelineEvent :=
  let joined : TimelineEvent :=
    { year := yearOf user.created_at, title := "Joined GitHub"
      description := "Account created • " ++ toString skillAnalysis.totalProjects ++
        " public repositories analysed" }
  match repos with
  | [] => [joined]
  | r :: rs =>
    let byCreation := List.insertionSort
      (fun a b : RepositoryWithLanguages => a.created_at ≤ b.created_at) (r :: rs)
    let firstRepo := byCreation.headD r
    let firstDesc := match firstRepo.description with
      | some d => if d = "" then "Initial project committed to GitHub" else d
      | none => "Initial project committed to GitHub"
    let firstEvent : TimelineEvent :=
      { year := yearOf firstRepo.created_at
        title := "First repository • " ++ firstRepo.name
        description := firstDesc }
    let langEvents := (skillAnalysis.topLanguages.take 3).foldl (fun evts lang =>
      match byCreation.find? (fun repo =>
        ((repo.language.getD "").toLower == lang.1.toLower) ||
        (repo.languageStats.getD []).any (fun p => p.1.toLower == lang.1.toLower)) with
      | some found =>
        let ev : TimelineEvent :=
          { year := yearOf found.created_at
            title := lang.1 ++ " adoption"
            description := found.name ++ " introduced " ++ lang.1 ++ " into the portfolio" }
        evts ++ [ev]
      | none => evts) []
    let latestRepo := (sortByUpdateDesc (r :: rs)).headD r
    let latestEvent : TimelineEvent :=
      { year := yearOf latestRepo.updated_at, title := "Latest launch"
        description := latestRepo.name ++ " updated " ++ timeSince now latestRepo.updated_at ++ " ago" }
    let events := [joined, firstEvent] ++ langEvents ++ [latestEvent]
    let sortedEvents := List.insertionSort (fun a b : TimelineEvent => a.year ≤ b.year) events
    sortedEvents.foldl (fun acc e =>
      if acc.any (fun ex => ex.year == e.year && ex.title == e.title) then acc
      else acc ++ [e]) []

/-- Pull-request state (`'open' | 'closed' | 'merged'`; `open` is a
Lean keyword, rendered `opened`). -/
inductive PRState
  | opened
  | closed
  | merged
deriving DecidableEq

/-- One recent pull-request record of `ContributionStats`. -/
structure RecentPR where
  repo : String
  title : String
  state : PRState
  url : String
  createdAt : Int
deriving DecidableEq

/-- `ContributionStats` (`src/types/github.ts`); passed through the
engine untouched. -/
structure ContributionStats where
  totalPRs : Nat
  mergedPRs : Nat
  openPRs : Nat
  totalIssues : Nat
  closedIssues : Nat
  recentPRs : List RecentPR
deriving DecidableEq

/-- `AnalysisResult` (`src/types/github.ts`). -/
structure AnalysisResult where
  user : GitHubUser
  skillAnalysis : SkillAnalysis
  opportunities : Opportunities
  futurePrediction : FuturePrediction
  highlights : List RepositoryHighlight
  activity : ActivityMetrics
  quality : QualitySignals
  timeline : List TimelineEvent
  contributions : Option ContributionStats
deriving DecidableEq

/-- `analyzeRepositories`: the Orchestrator, calling the component
analyzers in dependency order and assembling the final report. -/
def analyzeRepositories (now : Int) (user : GitHubUser) (repos : List RepositoryWithLanguages)
    (contributions : Option ContributionStats) : AnalysisResult :=
  let skillAnalysis := analyzeSkills now user repos
  let highlights := extractRepositoryHighlights repos (skillAnalysis.topLanguages.map Prod.fst)
  let activity := calculateActivityMetrics now repos
  let quality := evaluateQualitySignals repos activity
  let opportunities := identifyOpportunities skillAnalysis quality activity
  let futurePrediction := predictFuture skillAnalysis quality activity
  let timeline := buildTimeline now user repos skillAnalysis
  { user := user, skillAnalysis := skillAnalysis, opportunities := opportunities
    futurePrediction := futurePrediction, highlights := highlights, activity := activity
    quality := quality, timeline := timeline, contributions := contributions }

/-- C6: the engine is a pure, deterministic, total function of the
injected reference instant `now` and its inputs — witnessed by this
shallow embedding, in which every component is a computable function
with no state, randomness or I/O.  Two runs on identical inputs yield
identical results, and each field of the report is exactly the
deterministic composition of the component analyzers on those inputs. -/
theorem analyzeRepositories_deterministic (now : Int) (user : GitHubUser)
    (repos : List RepositoryWithLanguages) (contributions : Option ContributionStats) :
    analyzeRepositories now user repos contributions =
      analyzeRepositories now user repos contributions ∧
    (analyzeRepositories now user repos contributions).skillAnalysis =
      analyzeSkills now user repos ∧
    (analyzeRepositories now user repos contributions).activity =
      calculateActivityMetrics now repos ∧
    (analyzeRepositories now user repos contributions).quality =
      evaluateQualitySignals repos (calculateActivityMetrics now repos) ∧
    (analyzeRepositories now user repos contributions).highlights =
      extractRepositoryHighlights repos
        ((analyzeSkills now user repos).topLanguages.map Prod.fst) ∧
    (analyzeRepositories now user repos contributions).futurePrediction =
      predictFuture (analyzeSkills now user repos)
        (evaluateQualitySignals repos (calculateActivityMetrics now repos))
        (calculateActivityMetrics now repos) ∧
    (analyzeRepositories now user repos contributions).opportunities =
      identifyOpportunities (analyzeSkills now user repos)
        (evaluateQualitySignals repos (calculateActivityMetrics now repos))
        (calculateActivityMetrics now repos) ∧
    (analyzeRepositories now user repos contributions).timeline =
      buildTimeline now user repos (analyzeSkills now user repos) ∧
    (analyzeRepositories now user repos contributions).user = user ∧
    (analyzeRepositories now user repos contributions).contributions = contributions :=
  ⟨rfl, rfl, rfl, rfl, rfl, rfl, rfl, rfl, rfl, rfl⟩

end Skilled
